import Mathlib

/-
Verification of the rsync staging client (dispatch/receive pipeline).

The development shallowly embeds the client package: the `Path` value type
with its root-join operation (path.go), the dispatcher, the per-path
response-drain helper, the receiver and the `Stage` pipeline coordinator
(client.go).  External effects (file opens, signature computation, stream
encode/decode results, the ApplyDelta task, filesystem rename/remove
results) are supplied as per-path oracles, and the model records an event
trace (handle opens/closes, encodes, enqueues, renames, removals) so that
resource- and commit-level properties can be stated.  Blocking forever
(a Go goroutine stuck on a channel send/receive that can never complete)
is modelled as the value `none`.
-/

namespace Rsync

/-- A relative path: an immutable ordered sequence of string components
(source: `type Path []string`). -/
abbrev Path := List String

/-- `Appended` returns a new path with one more component, without aliasing
the original (source: `func (p Path) Appended`). -/
def Path.Appended (p : Path) (component : String) : Path :=
  p ++ [component]

/-- Whether a host path string is rooted (begins with the separator), as
used by `filepath.Clean` on unix. -/
def isRooted (s : String) : Bool :=
  match s.data with
  | [] => false
  | c :: _ => c = '/'

/-- Split a host path string on the separator character. -/
def splitSlashAux : List Char → List Char → List String
  | [], acc => [String.mk acc.reverse]
  | c :: cs, acc =>
    if c = '/' then String.mk acc.reverse :: splitSlashAux cs []
    else splitSlashAux cs (c :: acc)

def splitSlash (s : String) : List String :=
  splitSlashAux s.data []

/-- Join a list of strings with the separator character. -/
def joinSlash : List String → String
  | [] => ""
  | [s] => s
  | s :: rest => s ++ "/" ++ joinSlash rest

/-- Lexical component processing of `filepath.Clean` (unix rules): drop
empty and `.` components; `..` pops the previous component, is dropped at
the root of a rooted path, and accumulates at the front of a relative
path.  The first argument is the processed prefix, kept reversed. -/
def cleanComponents (rooted : Bool) : List String → List String → List String
  | stack, [] => stack.reverse
  | stack, c :: cs =>
    if c = "" ∨ c = "." then
      cleanComponents rooted stack cs
    else if c = ".." then
      match stack with
      | [] =>
        if rooted then cleanComponents rooted [] cs
        else cleanComponents rooted [".."] cs
      | t :: rest =>
        if t = ".." then cleanComponents rooted (".." :: t :: rest) cs
        else cleanComponents rooted rest cs
    else
      cleanComponents rooted (c :: stack) cs

/-- Model of Go `path/filepath.Clean` for unix separators. -/
def filepathClean (s : String) : String :=
  let rooted := isRooted s
  let comps := cleanComponents rooted [] (splitSlash s)
  let body := joinSlash comps
  if rooted then "/" ++ body
  else if body = "" then "." else body

/-- Model of Go `path/filepath.Join`: empty elements are ignored, the rest
are joined with the separator and the result is cleaned. -/
def filepathJoin (elems : List String) : String :=
  let ne := elems.filter (fun e => e ≠ "")
  if ne.isEmpty then "" else filepathClean (joinSlash ne)

/-- `AppendedToRoot` joins the path components themselves, then appends the
result to the root (source: `func (p Path) AppendedToRoot(root string)`,
which calls `filepath.Join(p...)` and then `filepath.Join(root, path)`). -/
def Path.AppendedToRoot (p : Path) (root : String) : String :=
  filepathJoin [root, filepathJoin p]

/-! ### Hex encoding of the content digest

The receiver names a committed file `fmt.Sprintf("%x", c.stagingHash.Sum(nil))`:
each digest byte becomes two lowercase hexadecimal digits. -/

def hexDigit (n : Nat) : Char :=
  if n < 10 then Char.ofNat (48 + n) else Char.ofNat (87 + n)

def hexByteChars (b : Nat) : List Char :=
  [hexDigit (b / 16 % 16), hexDigit (b % 16)]

def hexBytesChars : List Nat → List Char
  | [] => []
  | b :: bs => hexByteChars b ++ hexBytesChars bs

/-- Model of `fmt.Sprintf("%x", digest)` for a byte slice. -/
def hexBytes (bs : List Nat) : String :=
  String.mk (hexBytesChars bs)

def lowerHexDigits : List Char :=
  String.data "0123456789abcdef"

def isLowerHexChar (c : Char) : Bool :=
  lowerHexDigits.contains c

/-! ### Events and oracles

The model records externally visible effects as events.  `openBase`
carries the path, the host filesystem name that `os.Open` was given, and
whether the open succeeded (`real = false` means the empty stand-in base
was substituted).  Oracles supply the outcome of every external call. -/

inductive Ev
  | openBase (p : Path) (host : String) (real : Bool)
  | closeBase (p : Path)
  | encodeReq (p : Path)
  | enqueueReq (p : Path)
  | closeQueue
  | renameFile (target : String) (ok : Bool)
  | removeFile (ok : Bool)
deriving DecidableEq

/-- Per-path oracle for the dispatcher: outcome of `os.Open`, of
`CreateSignature`, of `stream.Encode`, and whether the enqueue/cancel
select observes the cancellation signal (only possible while a
cancellation token is pending). -/
structure DPathEnv where
  openOk : Bool
  sigOk : Bool
  encodeErr : Option String
  cancelWins : Bool
deriving DecidableEq

/-- Result of a terminating run of the dispatcher: its returned error,
whether it reached `close(outstanding)`, the records it handed to the
receiver (in order), and the event trace. -/
structure DResult where
  err : Option String
  queueClosed : Bool
  enqueued : List Path
  events : List Ev
deriving DecidableEq

/-- The dispatcher loop (source: `(*Client).dispatch`).  For each path it
opens the base (substituting the empty stand-in on failure), computes the
signature (close-and-skip on failure), encodes the request (an encode
error returns immediately — note: without closing the just-opened base
and without closing the outstanding queue), and then selects between
enqueueing the dispatched record and the cancellation signal.  In the
cancellation case the base is closed and `break` is executed — but in Go
a `break` inside a `select` terminates only the `select`, so the loop
continues with the next path.

`slots` models the capacity still available in the outstanding channel
once the receiver has stopped dequeuing (`none` = the receiver is live,
so an enqueue always eventually succeeds); `tok` is the number of pending
cancellation tokens (the cancel channel has capacity 1, so 0 or 1).
A blocked-forever send is `none`. -/
def dispatchLoop (root : String) :
    List (Path × DPathEnv) → Option Nat → Nat → List Path → List Ev → Option DResult
  | [], _, _, enq, evs => some ⟨none, true, enq, evs ++ [Ev.closeQueue]⟩
  | (p, env) :: rest, slots, tok, enq, evs =>
    let evs1 := evs ++ [Ev.openBase p (Path.AppendedToRoot p root) env.openOk]
    if env.sigOk = false then
      dispatchLoop root rest slots tok enq (evs1 ++ [Ev.closeBase p])
    else
      match env.encodeErr with
      | some e => some ⟨some e, false, enq, evs1⟩
      | none =>
        let evs2 := evs1 ++ [Ev.encodeReq p]
        if tok > 0 ∧ env.cancelWins = true then
          dispatchLoop root rest slots (tok - 1) enq (evs2 ++ [Ev.closeBase p])
        else
          match slots with
          | none => dispatchLoop root rest none tok (enq ++ [p]) (evs2 ++ [Ev.enqueueReq p])
          | some 0 =>
            if tok > 0 then
              dispatchLoop root rest (some 0) (tok - 1) enq (evs2 ++ [Ev.closeBase p])
            else
              none
          | some (s + 1) =>
            dispatchLoop root rest (some s) tok (enq ++ [p]) (evs2 ++ [Ev.enqueueReq p])

/-- The dispatcher entry point, starting from an empty accumulator. -/
def dispatch (root : String) (paths : List (Path × DPathEnv))
    (slots : Option Nat) (tok : Nat) : Option DResult :=
  dispatchLoop root paths slots tok [] []

/-! ### Receiver model -/

/-- One result of `stream.Decode(&response)`: a decoded `response`
(operation payload plus the `Done` flag) or a decode error.  The stream
is shared by all paths of the session: the only path delimiter on the
wire is a response with `Done = true`. -/
inductive DecodeResult
  | ok (done : Bool) (op : Nat)
  | err (e : String)
deriving DecidableEq

/-- Oracle for one `ApplyDelta` task: if `exitsAfter = some (n, e)` the
task posts result `e` to its one-slot result channel after consuming `n`
operations from the feed; otherwise it consumes operations until the feed
is closed and then posts `finalRes`.  `digest` is the final value of the
content-hash accumulator the task feeds. -/
structure ApplyEnv where
  exitsAfter : Option (Nat × Option String)
  finalRes : Option String
deriving DecidableEq

/-- Per-dequeued-record oracle for the receiver: the outcome of
`ioutil.TempFile`, the apply-task behaviour, the digest, and the
(discarded) results of `os.Rename` and `os.Remove` at commit time. -/
structure RecvEnv where
  tempErr : Option String
  apply : ApplyEnv
  digest : List Nat
  renameOk : Bool
  removeOk : Bool
deriving DecidableEq

/-- Whether the apply task is still consuming from the feed when the
receiver attempts to forward its `k`-th operation (0-based). -/
def applyAlive (ae : ApplyEnv) (k : Nat) : Bool :=
  match ae.exitsAfter with
  | none => true
  | some (n, _) => k < n

/-- The result the apply task posts when it exits early. -/
def earlyResult (ae : ApplyEnv) : Option String :=
  match ae.exitsAfter with
  | none => none
  | some (_, e) => e

/-- Drain responses until `Done` appears (source:
`(*Client).burnRemainingOperations`): a decode error is returned, `Done`
returns nil, operations are discarded.  Decoding from an exhausted stream
blocks (`none`). -/
def burnRemainingOperations : List DecodeResult → Option (Option String × List DecodeResult)
  | [] => none
  | DecodeResult.err e :: rest => some (some e, rest)
  | DecodeResult.ok true _ :: rest => some (none, rest)
  | DecodeResult.ok false _ :: rest => burnRemainingOperations rest

/-- State of the receiver's operation-feeding loop for one path:
operations forwarded so far, whether the apply task's completion was
observed (`applyExited`), the `applyError` recorded by the loop, and the
`decodeError` recorded so far. -/
structure RState where
  forwarded : Nat
  applyExited : Bool
  applyError : Option String
  decodeError : Option String
deriving DecidableEq

/-- The receiver's operation-feeding loop for one dequeued path (source:
the inner `for` of `(*Client).receive`).  Each iteration decodes a
response: a decode error or `Done` ends the loop; otherwise the receiver
selects between forwarding the operation to the apply task and receiving
the apply task's result.  When the apply result arrives first, the
remaining responses of the path are drained — and then `break` is
executed, which in Go terminates only the `select`, so the loop decodes
again.  At that point the apply task is gone and its result slot is
empty, so a further forward attempt blocks forever (`none`).

The first argument is fuel; `runFeed` supplies enough fuel that it can
never be exhausted before the stream is. -/
def feedLoop (ae : ApplyEnv) :
    Nat → RState → List DecodeResult → Option (RState × List DecodeResult)
  | 0, _, _ => none
  | _ + 1, _, [] => none
  | _ + 1, st, DecodeResult.err e :: rest =>
    some ({ st with decodeError := some e }, rest)
  | _ + 1, st, DecodeResult.ok true _ :: rest => some (st, rest)
  | fuel + 1, st, DecodeResult.ok false _ :: rest =>
    if st.applyExited then
      none
    else if applyAlive ae st.forwarded then
      feedLoop ae fuel { st with forwarded := st.forwarded + 1 } rest
    else
      match burnRemainingOperations rest with
      | none => none
      | some (be, rest2) =>
        feedLoop ae fuel
          { st with applyExited := true, applyError := earlyResult ae, decodeError := be }
          rest2

/-- Run the feeding loop from the initial state. -/
def runFeed (ae : ApplyEnv) (stream : List DecodeResult) :
    Option (RState × List DecodeResult) :=
  feedLoop ae (stream.length + 1)
    { forwarded := 0, applyExited := false, applyError := none, decodeError := none } stream

/-- The apply error observed after the loop: if completion was already
observed the loop's value stands; otherwise the receiver blocks on the
result channel, obtaining the early result when the task had already
consumed exactly its exit count, and otherwise the task's final result
after the feed is closed. -/
def postApplyError (ae : ApplyEnv) (st : RState) : Option String :=
  if st.applyExited then st.applyError
  else
    match ae.exitsAfter with
    | none => ae.finalRes
    | some (n, e) => if st.forwarded = n then e else ae.finalRes

/-- Commit decision for one path. -/
inductive CommitAction
  | rename (target : String)
  | delete
deriving DecidableEq

/-- Outcome of processing one dequeued record. -/
structure POut where
  decodeError : Option String
  applyError : Option String
  action : CommitAction
  events : List Ev
  rest : List DecodeResult
deriving DecidableEq

/-- Process one dequeued record (source: the body of the outer loop of
`(*Client).receive`, after a successful temp-file creation): run the
feeding loop, observe the apply result, then commit — if any error was
recorded the temp file is removed, otherwise it is renamed to the
lowercase hex digest of the content-hash accumulator inside the staging
directory.  The results of `os.Remove`/`os.Rename` are recorded as events
but discarded.  Note that the record's base handle is not closed here, as
in the source. -/
def processOne (staging : String) (env : RecvEnv) (stream : List DecodeResult) :
    Option POut :=
  match runFeed env.apply stream with
  | none => none
  | some (st, rest) =>
    let aerr := postApplyError env.apply st
    if st.decodeError.isSome || aerr.isSome then
      some ⟨st.decodeError, aerr, CommitAction.delete, [Ev.removeFile env.removeOk], rest⟩
    else
      let tgt := filepathJoin [staging, hexBytes env.digest]
      some ⟨none, none, CommitAction.rename tgt, [Ev.renameFile tgt env.renameOk], rest⟩

/-- Result of a terminating run of the receiver: its returned error, the
commit action taken for each processed path, the dequeued-but-unprocessed
records left in the queue, the unconsumed tail of the stream, and the
event trace. -/
structure RResult where
  err : Option String
  commits : List (Path × CommitAction)
  leftover : List Path
  rest : List DecodeResult
  events : List Ev
deriving DecidableEq

/-- The receiver loop (source: `(*Client).receive`): dequeue each record
in order; a temp-file failure closes the base and returns that error;
otherwise the record is processed, a decode error terminates the loop
with that error, and an apply error aborts only the current path.  An
exhausted, closed queue returns nil. -/
def receiveLoop (staging : String) (renvs : Nat → RecvEnv) :
    List Path → Nat → List DecodeResult → List (Path × CommitAction) → List Ev →
    Option RResult
  | [], _, stream, commits, evs => some ⟨none, commits, [], stream, evs⟩
  | p :: rest, i, stream, commits, evs =>
    let env := renvs i
    match env.tempErr with
    | some e => some ⟨some e, commits, rest, stream, evs ++ [Ev.closeBase p]⟩
    | none =>
      match processOne staging env stream with
      | none => none
      | some out =>
        let commits2 := commits ++ [(p, out.action)]
        let evs2 := evs ++ out.events
        match out.decodeError with
        | some e => some ⟨some e, commits2, rest, out.rest, evs2⟩
        | none => receiveLoop staging renvs rest (i + 1) out.rest commits2 evs2

/-- The receiver entry point. -/
def receive (staging : String) (renvs : Nat → RecvEnv) (records : List Path)
    (stream : List DecodeResult) : Option RResult :=
  receiveLoop staging renvs records 0 stream [] []

/-! ### Pipeline coordinator -/

/-- Capacity of the outstanding-request queue (source:
`maxOutstandingStagingRequests = 4`). -/
def maxOutstandingStagingRequests : Nat := 4

/-- Outcome of a terminating run of `Stage`. -/
structure SResult where
  err : Option String
  commits : List (Path × CommitAction)
  events : List Ev
deriving DecidableEq

/-- The pipeline coordinator (source: `(*Client).Stage`): run the
dispatcher and the receiver, drain the leftover records of the queue
(closing their bases), and return the dispatcher's error if set, else the
receiver's, else nil.  The drain is Go's `for dispatched := range
outstanding`, which terminates only once the channel has been closed: if
the dispatcher returned without reaching `close(outstanding)`, `Stage`
blocks forever (`none`), as it does if either stage itself blocks. -/
def Stage (root staging : String) (denvs : List (Path × DPathEnv))
    (slots : Option Nat) (tok : Nat) (renvs : Nat → RecvEnv)
    (stream : List DecodeResult) : Option SResult :=
  match dispatch root denvs slots tok with
  | none => none
  | some d =>
    match receive staging renvs d.enqueued stream with
    | none => none
    | some r =>
      if d.queueClosed then
        some ⟨(match d.err with | some e => some e | none => r.err),
              r.commits,
              d.events ++ r.events ++ r.leftover.map Ev.closeBase⟩
      else
        none

/-! ### Event counting (handle accounting) -/

def isOpenEv : Ev → Bool
  | Ev.openBase _ _ _ => true
  | _ => false

def isCloseEv : Ev → Bool
  | Ev.closeBase _ => true
  | _ => false

def countOpens (evs : List Ev) : Nat :=
  (evs.filter isOpenEv).length

def countCloses (evs : List Ev) : Nat :=
  (evs.filter isCloseEv).length

/-! ### The outstanding-request channel

`Stage` allocates `make(chan dispatchedRequest, maxOutstandingStagingRequests)`.
A buffered Go channel holds at most its capacity; a send on a full buffer
blocks, modelled by `enqueue` returning `none` (in which case the buffer
is unchanged and the sender waits). -/

structure BoundedQueue where
  buf : List Path
  cap : Nat
deriving DecidableEq

def BoundedQueue.enqueue (q : BoundedQueue) (p : Path) : Option BoundedQueue :=
  if q.buf.length < q.cap then some { q with buf := q.buf ++ [p] } else none

/-- The queue as created by `Stage`. -/
def outstandingQueue : BoundedQueue :=
  { buf := [], cap := maxOutstandingStagingRequests }

inductive QOp
  | enq (p : Path)
  | deq

/-- One scheduler step against the queue: a blocked send and a receive on
an empty buffer leave it unchanged (the goroutine waits). -/
def queueStep (q : BoundedQueue) : QOp → BoundedQueue
  | QOp.enq p =>
    match q.enqueue p with
    | some q2 => q2
    | none => q
  | QOp.deq => { q with buf := q.buf.tail }

def runQueue (q : BoundedQueue) : List QOp → BoundedQueue
  | [] => q
  | o :: os => runQueue (queueStep q o) os

/-! ### Concrete scenario oracles used by the theorems below -/

/-- A path for which every dispatcher-side external call succeeds. -/
def okDEnv : DPathEnv :=
  { openOk := true, sigOk := true, encodeErr := none, cancelWins := false }

/-- As `okDEnv`, but the enqueue/cancel select observes the cancellation
signal (when a token is pending). -/
def cwDEnv : DPathEnv :=
  { openOk := true, sigOk := true, encodeErr := none, cancelWins := true }

/-- A path whose `stream.Encode` call fails. -/
def encFailDEnv : DPathEnv :=
  { openOk := true, sigOk := true, encodeErr := some "encode failure", cancelWins := false }

/-- An apply task that consumes its whole feed and succeeds. -/
def okApply : ApplyEnv :=
  { exitsAfter := none, finalRes := none }

/-- A receiver-side oracle in which everything succeeds; the digest byte
171 gives the hex name "ab". -/
def okRecvEnv : RecvEnv :=
  { tempErr := none, apply := okApply, digest := [171], renameOk := true, removeOk := true }

/-- A receiver-side oracle whose apply task fails after consuming one
operation. -/
def failApplyEnv : RecvEnv :=
  { tempErr := none, apply := { exitsAfter := some (1, some "apply failed"), finalRes := none },
    digest := [1], renameOk := true, removeOk := true }

/-- Receiver oracles for a two-path session: the apply task fails on the
first path, everything succeeds on the second. -/
def renvsApplyFailFirst : Nat → RecvEnv
  | 0 => failApplyEnv
  | _ => okRecvEnv

/-- A receiver-side oracle in which the commit-time `os.Rename` fails. -/
def renameFailEnv : RecvEnv :=
  { tempErr := none, apply := okApply, digest := [171], renameOk := false, removeOk := true }

/-- The dispatcher events produced for one path when no encode error
occurs and no cancellation is pending: open the base, and either encode
and enqueue (signature computed) or close the base and skip (signature
failed). -/
def perPathEvs (root : String) (pe : Path × DPathEnv) : List Ev :=
  if pe.2.sigOk then
    [Ev.openBase pe.1 (Path.AppendedToRoot pe.1 root) pe.2.openOk, Ev.encodeReq pe.1,
     Ev.enqueueReq pe.1]
  else
    [Ev.openBase pe.1 (Path.AppendedToRoot pe.1 root) pe.2.openOk, Ev.closeBase pe.1]

/-- A three-path batch exercising each non-fatal per-path failure: the
base of "a" fails to open, the signature of "b" fails, "c" is clean. -/
def batchWithPerPathFailures : List (Path × DPathEnv) :=
  [(["a"], { openOk := false, sigOk := true, encodeErr := none, cancelWins := false }),
   (["b"], { openOk := true, sigOk := false, encodeErr := none, cancelWins := false }),
   (["c"], okDEnv)]

/-- The outcome of processing one clean path whose digest byte is 171. -/
def cleanPOut : POut :=
  ⟨none, none, CommitAction.rename "/s/ab", [Ev.renameFile "/s/ab" true], []⟩

/-! ## Theorems -/

/-! ### Helper lemmas -/

theorem hexDigit_lower : ∀ n, n < 16 → isLowerHexChar (hexDigit n) = true := by
  decide

theorem hexBytesChars_lower :
    ∀ bs, ∀ c ∈ hexBytesChars bs, isLowerHexChar c = true := by
  intro bs
  induction bs with
  | nil => intro c hc; cases hc
  | cons b rest ih =>
    intro c hc
    rcases List.mem_append.mp hc with h | h
    · simp only [hexByteChars, List.mem_cons, List.not_mem_nil, or_false] at h
      rcases h with h | h
      · exact h ▸ hexDigit_lower _ (Nat.mod_lt _ (by omega))
      · exact h ▸ hexDigit_lower _ (Nat.mod_lt _ (by omega))
    · exact ih c h

theorem runQueue_inv :
    ∀ (ops : List QOp) (q : BoundedQueue), q.buf.length ≤ q.cap →
      (runQueue q ops).buf.length ≤ q.cap ∧ (runQueue q ops).cap = q.cap := by
  intro ops
  induction ops with
  | nil => intro q h; exact ⟨h, rfl⟩
  | cons o os ih =>
    intro q h
    have hstep : (queueStep q o).buf.length ≤ q.cap ∧ (queueStep q o).cap = q.cap := by
      cases o with
      | enq p =>
        by_cases hlt : q.buf.length < q.cap
        · constructor
          · simp only [queueStep, BoundedQueue.enqueue, if_pos hlt]
            simp
            omega
          · simp only [queueStep, BoundedQueue.enqueue, if_pos hlt]
        · constructor
          · simp only [queueStep, BoundedQueue.enqueue, if_neg hlt]
            exact h
          · simp only [queueStep, BoundedQueue.enqueue, if_neg hlt]
      | deq =>
        refine ⟨?_, rfl⟩
        simp only [queueStep]
        have := List.length_tail q.buf
        omega
    have := ih (queueStep q o) (hstep.2 ▸ hstep.1)
    rw [hstep.2] at this
    simpa [runQueue] using this

theorem dispatchLoop_no_fatal (root : String) :
    ∀ (l : List (Path × DPathEnv)) (enq : List Path) (evs : List Ev),
      (∀ pe ∈ l, pe.2.encodeErr = none) →
      dispatchLoop root l none 0 enq evs =
        some ⟨none, true, enq ++ (l.filter fun pe => pe.2.sigOk).map Prod.fst,
              evs ++ (l.map (perPathEvs root)).flatten ++ [Ev.closeQueue]⟩ := by
  intro l
  induction l with
  | nil => intro enq evs _; simp [dispatchLoop]
  | cons pe rest ih =>
    intro enq evs hl
    obtain ⟨p, env⟩ := pe
    have henc : env.encodeErr = none := hl (p, env) (List.mem_cons_self _ _)
    have hrest : ∀ x ∈ rest, x.2.encodeErr = none := fun x hx => hl x (List.mem_cons_of_mem _ hx)
    by_cases hs : env.sigOk = false
    · rw [show dispatchLoop root ((p, env) :: rest) none 0 enq evs =
          dispatchLoop root rest none 0 enq
            ((evs ++ [Ev.openBase p (Path.AppendedToRoot p root) env.openOk]) ++ [Ev.closeBase p])
        by simp [dispatchLoop, hs]]
      rw [ih _ _ hrest]
      simp [perPathEvs, hs, List.filter_cons]
    · have hs2 : env.sigOk = true := by revert hs; cases env.sigOk <;> simp
      rw [show dispatchLoop root ((p, env) :: rest) none 0 enq evs =
          dispatchLoop root rest none 0 (enq ++ [p])
            (((evs ++ [Ev.openBase p (Path.AppendedToRoot p root) env.openOk]) ++
              [Ev.encodeReq p]) ++ [Ev.enqueueReq p])
        by simp [dispatchLoop, hs2, henc]]
      rw [ih _ _ hrest]
      simp [perPathEvs, hs2, List.filter_cons]

/-! ### Claim theorems -/

/-- C1: The claim states that when the apply task completes before `Done`
is decoded, the receiver drains the remaining responses of the path until
`Done`, then commits or deletes the temp file and continues with the next
dequeued path, so that an apply failure on path A does not prevent a
later path B from being committed.  The code drains, but the `break`
after the drain terminates only the `select`, so the loop decodes again:
here the apply task for path "a" fails after one operation, the drain
consumes the rest of "a"'s responses up to `Done` (first conjunct), and
the continued loop then decodes path "b"'s first operation and blocks
forever trying to forward it to the already-exited apply task — path "b"
is never processed, refuting the claim. -/
theorem receive_blocks_after_drain :
    burnRemainingOperations
      [DecodeResult.ok true 0, DecodeResult.ok false 12, DecodeResult.ok true 0] =
      some (none, [DecodeResult.ok false 12, DecodeResult.ok true 0]) ∧
    receive "/s" renvsApplyFailFirst [["a"], ["b"]]
      [DecodeResult.ok false 10, DecodeResult.ok false 11, DecodeResult.ok true 0,
       DecodeResult.ok false 12, DecodeResult.ok true 0] = none := by
  exact ⟨by decide, by decide⟩

/-- C2: The claim states that when the dispatcher observes cancellation at
the enqueue select, it closes that path's base and stops: no further
paths are processed.  In the code the `break` in the cancellation case
terminates only the `select`, so the loop continues: with two paths and a
pending cancellation token observed at path "a"'s enqueue, the base of
"a" is closed, but path "b" is still opened, encoded and enqueued, and
the queue is closed only after the whole list — refuting "processes no
further paths". -/
theorem dispatch_continues_after_cancel :
    dispatch "/r" [(["a"], cwDEnv), (["b"], okDEnv)] none 1 =
      some ⟨none, true, [["b"]],
        [Ev.openBase ["a"] "/r/a" true, Ev.encodeReq ["a"], Ev.closeBase ["a"],
         Ev.openBase ["b"] "/r/b" true, Ev.encodeReq ["b"], Ev.enqueueReq ["b"],
         Ev.closeQueue]⟩ := by
  decide

/-- C3: The claim states that `Stage` always returns, with the
dispatcher's error if set (in particular the stream-encode error).  When
the encode of path "a" fails, the dispatcher does return that error
(first conjunct) but without reaching `close(outstanding)` (second
conjunct); `Stage`'s final `for dispatched := range outstanding` drain
loop therefore never terminates, so `Stage` never returns (third
conjunct), refuting the claim. -/
theorem stage_blocks_on_encode_failure :
    (dispatch "/r" [(["a"], encFailDEnv)] none 0).map DResult.err =
      some (some "encode failure") ∧
    (dispatch "/r" [(["a"], encFailDEnv)] none 0).map DResult.queueClosed = some false ∧
    Stage "/r" "/s" [(["a"], encFailDEnv)] none 0 (fun _ => okRecvEnv) [] = none := by
  exact ⟨by decide, by decide, by decide⟩

/-- C4: The claim states that a mid-session decode failure makes receive
terminate with that error after deleting the current temp file, and that
`Stage` returns that error.  The receiver half is what the code does
(first conjunct: the error is returned, the path's temp file is removed).
But the receiver's exit leaves nobody dequeuing; once `Stage` has sent the
single cancellation token, a dispatcher that still has six
signature-successful paths left consumes the token at one select (and, due
to the no-op `break`, keeps going), fills the four queue slots, and then
blocks forever on the fifth enqueue (second conjunct) — so `Stage` never
returns and never surfaces the decode error, refuting the claim's `Stage`
half. -/
theorem stage_blocks_after_decode_error :
    receive "/s" (fun _ => okRecvEnv) [["p"]] [DecodeResult.err "decode failure"] =
      some ⟨some "decode failure", [(["p"], CommitAction.delete)], [], [],
            [Ev.removeFile true]⟩ ∧
    dispatch "/r" [(["p1"], cwDEnv), (["p2"], okDEnv), (["p3"], okDEnv), (["p4"], okDEnv),
      (["p5"], okDEnv), (["p6"], okDEnv)] (some 4) 1 = none := by
  exact ⟨by decide, by decide⟩

/-- C5: The claim states that every base handle opened by the dispatcher
is closed exactly once by the time `Stage` returns, so no handles leak.
In the simplest fully successful session — one path, base opened, request
encoded and enqueued, operations applied, file committed, `Stage`
returning nil — the event trace contains one base open and zero base
closes: the receiver never closes the base handle of a processed record
(there is no `base.Close()` after `ApplyDelta`), so the handle leaks,
refuting the claim. -/
theorem base_handle_leaked_on_successful_stage :
    (Stage "/r" "/s" [(["a"], okDEnv)] none 0 (fun _ => okRecvEnv)
      [DecodeResult.ok false 7, DecodeResult.ok true 0]).map
      (fun r => (r.err, countOpens r.events, countCloses r.events)) =
      some (none, 1, 0) := by
  decide

/-- C6 (counterexample to the unconditional claim): the claim states that
a dequeued path that incurred an apply error has its temp file deleted.
In a single-path session whose apply task fails after one operation
(first conjunct shows the oracle's failure), the receiver drains the
path's responses to `Done`, but the no-op `break` sends the loop back to
decode on the now-idle wire, where it blocks forever: the iteration never
reaches the commit point, so the temp file is neither renamed nor
deleted — no `removeFile` event ever occurs. -/
theorem commit_skipped_on_apply_error :
    ApplyEnv.exitsAfter failApplyEnv.apply = some (1, some "apply failed") ∧
    receive "/s" renvsApplyFailFirst [["a"]]
      [DecodeResult.ok false 10, DecodeResult.ok false 11, DecodeResult.ok true 0] =
      none := by
  exact ⟨by decide, by decide⟩

/-- C6 (amended): for each dequeued path whose iteration reaches the
commit point, the temp file is renamed to the lowercase hexadecimal
digest of the content-hash accumulator joined under the staging directory
if and only if the path incurred neither a decode/drain error nor an
apply error; otherwise the temp file is deleted.  Every character of the
target name's digest part is a lowercase hex digit.  (A path whose apply
error triggers the drain-then-continue deadlock never reaches the commit
point, and its temp file is neither renamed nor deleted.) -/
theorem commit_rename_iff_no_error (staging : String) (env : RecvEnv)
    (stream : List DecodeResult) (out : POut)
    (h : processOne staging env stream = some out) :
    (out.action = CommitAction.rename (filepathJoin [staging, hexBytes env.digest]) ↔
      out.decodeError = none ∧ out.applyError = none) ∧
    (out.action = CommitAction.delete ↔
      ¬(out.decodeError = none ∧ out.applyError = none)) ∧
    (∀ c ∈ (hexBytes env.digest).data, isLowerHexChar c = true) := by
  refine ⟨?_, ?_, fun c hc => hexBytesChars_lower env.digest c hc⟩ <;>
  · unfold processOne at h
    cases hf : runFeed env.apply stream with
    | none => rw [hf] at h; exact absurd h (by simp)
    | some pr =>
      obtain ⟨st, rest⟩ := pr
      rw [hf] at h
      simp only at h
      split at h <;>
      · rename_i hcond
        injection h with h
        subst h
        simp_all [Option.isSome_iff_ne_none]
        try tauto

/-- C6 witness: a clean path with digest byte 171 commits by renaming to
"/s/ab", and the characterization applies to it. -/
theorem commit_rename_iff_no_error_witness :
    processOne "/s" okRecvEnv [DecodeResult.ok true 0] = some cleanPOut ∧
    ((cleanPOut.action =
        CommitAction.rename (filepathJoin ["/s", hexBytes okRecvEnv.digest]) ↔
      cleanPOut.decodeError = none ∧ cleanPOut.applyError = none) ∧
     (cleanPOut.action = CommitAction.delete ↔
      ¬(cleanPOut.decodeError = none ∧ cleanPOut.applyError = none)) ∧
     (∀ c ∈ (hexBytes okRecvEnv.digest).data, isLowerHexChar c = true)) :=
  ⟨by decide,
   commit_rename_iff_no_error "/s" okRecvEnv [DecodeResult.ok true 0] cleanPOut (by decide)⟩

/-- C7: The hand-off queue created by `Stage` has capacity
`maxOutstandingStagingRequests = 4`: along any sequence of enqueue and
dequeue steps it holds at most 4 dispatched-but-unreceived records, and a
dispatcher enqueue on a queue of that capacity already holding 4 records
blocks. -/
theorem outstanding_queue_bounded :
    maxOutstandingStagingRequests = 4 ∧
    (∀ ops : List QOp, (runQueue outstandingQueue ops).buf.length ≤ 4) ∧
    (∀ (q : BoundedQueue) (p : Path), q.cap = maxOutstandingStagingRequests →
      4 ≤ q.buf.length → BoundedQueue.enqueue q p = none) := by
  refine ⟨rfl, ?_, ?_⟩
  · intro ops
    exact (runQueue_inv ops outstandingQueue (by simp [outstandingQueue])).1
  · intro q p hcap hlen
    unfold BoundedQueue.enqueue
    rw [if_neg]
    rw [hcap]
    unfold maxOutstandingStagingRequests
    omega

/-- C7 witness: five enqueues leave at most four records buffered, and an
enqueue into a full queue of the program's capacity blocks. -/
theorem outstanding_queue_bounded_witness :
    maxOutstandingStagingRequests = 4 ∧
    (runQueue outstandingQueue
      [QOp.enq ["a"], QOp.enq ["b"], QOp.enq ["c"], QOp.enq ["d"],
       QOp.enq ["e"]]).buf.length ≤ 4 ∧
    BoundedQueue.cap ⟨[["a"], ["b"], ["c"], ["d"]], maxOutstandingStagingRequests⟩ =
      maxOutstandingStagingRequests ∧
    4 ≤ (BoundedQueue.buf ⟨[["a"], ["b"], ["c"], ["d"]], maxOutstandingStagingRequests⟩).length ∧
    BoundedQueue.enqueue ⟨[["a"], ["b"], ["c"], ["d"]], maxOutstandingStagingRequests⟩ ["e"] =
      none :=
  ⟨outstanding_queue_bounded.1,
   outstanding_queue_bounded.2.1 _,
   rfl,
   by decide,
   outstanding_queue_bounded.2.2 _ ["e"] rfl (by decide)⟩

/-- C8: When no stream-encode error occurs (and no cancellation is
pending), the dispatcher processes every path of the batch and returns
nil with the queue closed: a base-open failure merely substitutes the
empty stand-in (the `openBase` event's flag), a signature failure closes
the base and skips the path, and exactly the signature-successful paths
are encoded and enqueued, in order — so neither per-path failure aborts
dispatch or is reported. -/
theorem per_path_failures_nonfatal (root : String) (l : List (Path × DPathEnv))
    (h : ∀ pe ∈ l, pe.2.encodeErr = none) :
    dispatch root l none 0 =
      some ⟨none, true, (l.filter fun pe => pe.2.sigOk).map Prod.fst,
            (l.map (perPathEvs root)).flatten ++ [Ev.closeQueue]⟩ := by
  have := dispatchLoop_no_fatal root l [] [] h
  simpa [dispatch] using this

/-- C8 witness: a batch with a base-open failure on "a" and a signature
failure on "b" still dispatches to completion, enqueueing "a" and "c". -/
theorem per_path_failures_nonfatal_witness :
    (∀ pe ∈ batchWithPerPathFailures, pe.2.encodeErr = none) ∧
    dispatch "/r" batchWithPerPathFailures none 0 =
      some ⟨none, true,
            (batchWithPerPathFailures.filter fun pe => pe.2.sigOk).map Prod.fst,
            (batchWithPerPathFailures.map (perPathEvs "/r")).flatten ++ [Ev.closeQueue]⟩ :=
  ⟨by decide, per_path_failures_nonfatal "/r" batchWithPerPathFailures (by decide)⟩

/-- C9: The results of the commit-time `os.Rename` and `os.Remove` are
discarded: in a session whose only path commits cleanly but whose rename
fails (the `renameFile` event's flag is false), the receiver still
records the path as committed and `Stage` returns nil — the failed rename
is never reported. -/
theorem rename_failure_not_reported :
    Stage "/r" "/s" [(["a"], okDEnv)] none 0 (fun _ => renameFailEnv)
      [DecodeResult.ok false 7, DecodeResult.ok true 0] =
      some ⟨none, [(["a"], CommitAction.rename "/s/ab")],
        [Ev.openBase ["a"] "/r/a" true, Ev.encodeReq ["a"], Ev.enqueueReq ["a"],
         Ev.closeQueue, Ev.renameFile "/s/ab" false]⟩ := by
  decide

/-- C10: `AppendedToRoot` passes the components straight to
`filepath.Join` with no sanitization: for the path whose single component
is "..", the host path under root "/base" is "/", which is not the root
and not under the root — and the dispatcher would open that escaped path
as the base (the `openBase` event's host string). -/
theorem appendedToRoot_escapes_root :
    Path.AppendedToRoot [".."] "/base" = "/" ∧
    ("/" : String) ≠ "/base" ∧
    List.isPrefixOf ("/base").data ("/").data = false ∧
    (dispatch "/base" [([".."], okDEnv)] none 0).map DResult.events =
      some [Ev.openBase [".."] "/" true, Ev.encodeReq [".."], Ev.enqueueReq [".."],
            Ev.closeQueue] := by
  exact ⟨by decide, by decide, by decide, by decide⟩

end Rsync
